import Mathlib

/-!
Shallow embedding of `codex-rs/core/src/git_diff_tracker.rs` (the session-scoped
git change tracker).  External effects — the `git` subprocess, the process
current directory, file metadata and file contents — are modelled as an
explicit environment `GitEnv`; every operation of the Rust `GitDiffTracker`
becomes a Lean function of the environment and the tracker state.
-/

/-- Rust `char::is_whitespace`, restricted to the ASCII white-space
characters (the inputs trimmed here are git output and diff text). -/
def rustIsWS (c : Char) : Bool :=
  c == ' ' || c == '\t' || c == '\n' || c == '\r' || c.toNat == 11 || c.toNat == 12

/-- Rust `str::trim` on the character list: drop white space from both ends
(structural recursion, so that concrete runs reduce in the kernel). -/
def rustTrim (s : String) : String :=
  String.mk (((s.data.dropWhile rustIsWS).reverse.dropWhile rustIsWS).reverse)

/-- Split a character list at every occurrence of `sep` (the pieces do not
contain `sep`; n separators yield n+1 pieces). -/
def splitOnChar (sep : Char) : List Char → List (List Char)
  | [] => [[]]
  | c :: rest =>
    if c = sep then [] :: splitOnChar sep rest
    else
      match splitOnChar sep rest with
      | [] => [[c]]
      | l :: ls => (c :: l) :: ls

/-- Model of a Rust `PathBuf`: an absolute-or-relative flag plus the list of
path components (`/`-separated).  Equality and `strip_prefix` compare
component lists, as Rust `Path` does. -/
structure RPath where
  absolute : Bool
  comps : List String
deriving DecidableEq

/-- Parse a path string into components, dropping empty components and
non-leading `.` components (Rust `Components` normalisation). -/
def RPath.parse (s : String) : RPath :=
  let raw := (splitOnChar '/' s.data).filter (fun c => ¬ c.isEmpty)
  let comps := match raw with
    | [] => []
    | c :: rest => c :: rest.filter (fun x => x ≠ ['.'])
  { absolute := s.data.head? = some '/', comps := comps.map String.mk }

/-- Model of Rust `Path::strip_prefix`: when `base`'s components are a prefix
of `p`'s (and both are absolute or both relative), return the remaining
components; otherwise fail. -/
def RPath.stripBase (p base : RPath) : Option (List String) :=
  if p.absolute = base.absolute ∧ base.comps.isPrefixOf p.comps then
    some (p.comps.drop base.comps.length)
  else none

/-- Model of Rust `Path::join` with a relative (or absolute) string path. -/
def RPath.join (p : RPath) (rel : String) : RPath :=
  let r := RPath.parse rel
  if r.absolute then r else { absolute := p.absolute, comps := p.comps ++ r.comps }

/-- Model of Rust `str::lines`: split at `\n`, strip a trailing `\r` from each
terminated line, and do not produce a final empty line for a trailing `\n`. -/
def rustLines (s : String) : List String :=
  if s.data.isEmpty then []
  else
    let parts := splitOnChar '\n' s.data
    let stripCR := fun (l : List Char) => if l.getLast? = some '\r' then l.dropLast else l
    match parts.reverse with
    | [] => []
    | last :: revInit =>
      let initLines := (revInit.reverse).map stripCR
      ((if last.isEmpty then initLines else initLines ++ [last]).map String.mk)

/-- Result of `std::fs::metadata` on one file: the `created()` and
`modified()` timestamps, each of which may be unavailable. -/
structure FileMeta where
  created : Option Nat
  modified : Option Nat
deriving DecidableEq

/-- The external world as the tracker observes it: `git` invocations
(`none` models an `io::Result` error from spawning; a failing exit status is
already folded to `some ""` by `run_git` in the source), the process current
directory, and the filesystem. -/
structure GitEnv where
  git : Option RPath → List String → Option String
  currentDir : Option RPath
  metadata : RPath → Option FileMeta
  readToString : RPath → Option String

/-- State of `GitDiffTracker` (the five fields of the Rust struct; the wall
clock is a `Nat`). -/
structure GitDiffTracker where
  enabled : Bool
  cwd : Option RPath
  initial_git_hash : Option String
  session_start_time : Nat
  last_diff_hash : Option String
deriving DecidableEq

/-- Model of `GitDiffTracker::run_git`: run git with the given args in the tracker's
directory.  A non-UTF8-safe lossy read and the `Ok("")`-on-failure folding are
inside `env.git`'s contract, mirroring the source's `run_git`. -/
def run_git (env : GitEnv) (t : GitDiffTracker) (args : List String) : Option String :=
  env.git t.cwd args

/-- Model of `capture_initial_state`: resolve `rev-parse HEAD`; non-empty trimmed
output is stored as the baseline, anything else disables tracking. -/
def capture_initial_state (env : GitEnv) (t : GitDiffTracker) : GitDiffTracker :=
  match run_git env t ["rev-parse", "HEAD"] with
  | some out =>
    if ¬ (rustTrim out).data.isEmpty then { t with initial_git_hash := some (rustTrim out) }
    else { t with enabled := false }
  | none => { t with enabled := false }

/-- Model of `GitDiffTracker::new`: build the state and, when enabled, capture the
baseline (the construction-time clock is the explicit `now`). -/
def GitDiffTracker.new (env : GitEnv) (enabled : Bool) (cwd : Option RPath) (now : Nat) :
    GitDiffTracker :=
  let t : GitDiffTracker :=
    { enabled := enabled, cwd := cwd, initial_git_hash := none,
      session_start_time := now, last_diff_hash := none }
  if t.enabled then capture_initial_state env t else t

/-- The directory used for worktree comparison and for resolving untracked
files: the tracker's `cwd`, else the process current directory, else `.`. -/
def effectiveDir (env : GitEnv) (t : GitDiffTracker) : RPath :=
  t.cwd.getD (env.currentDir.getD (RPath.parse "."))

/-- Join relative-path components with `/` (Rust `Path::to_string_lossy` of
the components remaining after `strip_prefix`). -/
def joinSlash : List String → String
  | [] => ""
  | [x] => x
  | x :: rest => x ++ "/" ++ joinSlash rest

/-- Model of `get_worktree_exclusions`: parse `worktree list --porcelain`, and for each
listed path other than the current directory that lies under it, emit
`:(exclude)<relative-path>`. -/
def get_worktree_exclusions (env : GitEnv) (t : GitDiffTracker) : List String :=
  match run_git env t ["worktree", "list", "--porcelain"] with
  | none => []
  | some raw =>
    let current_dir := effectiveDir env t
    (rustLines raw).filterMap (fun line =>
      if "worktree ".data.isPrefixOf line.data then
        let worktree := RPath.parse (rustTrim (String.mk (line.data.drop "worktree ".data.length)))
        if worktree ≠ current_dir then
          match worktree.stripBase current_dir with
          | some rel =>
            let rels := joinSlash rel
            if ¬ rels.data.isEmpty then some (":(exclude)" ++ rels) else none
          | none => none
        else none
      else none)

/-- Append exclusion patterns after a `--` separator (the pattern used by both
the `diff` and the `ls-files` invocations). -/
def withExclusions (base : List String) (excl : List String) : List String :=
  if excl.isEmpty then base else base ++ "--" :: excl

/-- Model of `created().or_else(|_| m.modified())`: creation time with
fallback to modification time. -/
def FileMeta.resolve (m : FileMeta) : Option Nat :=
  m.created.orElse (fun _ => m.modified)

/-- The timestamp the untracked-file filter uses for one path:
`std::fs::metadata(&abs).and_then(|m| m.created().or_else(|_| m.modified()))`. -/
def resolveTime (env : GitEnv) (p : RPath) : Option Nat :=
  (env.metadata p).bind FileMeta.resolve

/-- The synthesized diff block for one untracked file `rel` (empty when the
file is skipped): loop body of `get_untracked_files`. -/
def fileBlock (env : GitEnv) (base : RPath) (rel : String) (sessionStart : Nat) : String :=
  let abs := base.join rel
  match resolveTime env abs with
  | none => ""
  | some created =>
    if created < sessionStart then ""
    else
      let header := "diff --git a/" ++ rel ++ " b/" ++ rel ++ "\n"
        ++ "new file mode 100644\n"
        ++ "index 0000000..0000000\n"
        ++ "--- /dev/null\n"
        ++ "+++ b/" ++ rel ++ "\n"
      let body := match env.readToString abs with
        | some contents =>
          let lines := rustLines contents
          let count := lines.length
          "@@ -0,0 +1," ++ Nat.repr count ++ " @@\n"
            ++ String.join (lines.map (fun l => "+" ++ l ++ "\n"))
            ++ (if ¬ (contents.data.getLast? = some '\n') then
                  "\\ No newline at end of file\n" else "")
        | none => "@@ -0,0 +1,1 @@\n" ++ "+[Binary or unreadable file]\n"
      header ++ body ++ "\n"

/-- Model of `get_untracked_files`: list untracked files via `ls-files` and synthesize
a diff block for each qualifying one. -/
def get_untracked_files (env : GitEnv) (t : GitDiffTracker) (exclude_patterns : List String) :
    String :=
  let args := withExclusions ["ls-files", "--others", "--exclude-standard"] exclude_patterns
  match run_git env t args with
  | none => ""
  | some out =>
    let files := (rustLines out).filter (fun s => ¬ (rustTrim s).data.isEmpty)
    if files.isEmpty then ""
    else
      let base := effectiveDir env t
      String.join (files.map (fun rel => fileBlock env base rel t.session_start_time))

/-- The argument list of the `git diff` invocation, before exclusions. -/
def diffBaseArgs (t : GitDiffTracker) : List String :=
  match t.initial_git_hash with
  | some hash => ["diff", hash]
  | none => ["diff", "HEAD"]

/-- The trimmed committed+uncommitted diff segment of `get_diff` (empty when
the invocation errors or the trimmed output is empty). -/
def gitDiffSegment (env : GitEnv) (t : GitDiffTracker) (exclude_patterns : List String) :
    String :=
  match run_git env t (withExclusions (diffBaseArgs t) exclude_patterns) with
  | some out => rustTrim out
  | none => ""

/-- Tail of `get_diff`: append the untracked section to the (already trimmed)
diff segment, inserting one `\n` boundary only when both are non-empty. -/
def combineSegments (g u : String) : String :=
  if u.data.isEmpty then g else (if g.data.isEmpty then "" else g ++ "\n") ++ u

/-- Model of `get_diff`: `none` when disabled, otherwise the combined diff text
(possibly empty). -/
def get_diff (env : GitEnv) (t : GitDiffTracker) : Option String :=
  if ¬ t.enabled then none
  else
    let exclude_patterns := get_worktree_exclusions env t
    let combined := gitDiffSegment env t exclude_patterns
    let untracked := get_untracked_files env t exclude_patterns
    some (combineSegments combined untracked)

/-! SHA-1 (the `sha1` crate's `Sha1`/`Digest`), over `Nat` with explicit
32-bit wraparound, on the UTF-8 bytes of the input string. -/

/-- Truncate to 32 bits. -/
def w32 (n : Nat) : Nat := n % 4294967296

/-- 32-bit left rotation (input assumed < 2^32). -/
def rotl32 (x s : Nat) : Nat := w32 ((x <<< s) ||| (x >>> (32 - s)))

/-- UTF-8 encoding of a string, as byte values (Rust `str::as_bytes`). -/
def utf8Bytes (s : String) : List Nat :=
  s.data.flatMap (fun c =>
    let n := c.toNat
    if n < 128 then [n]
    else if n < 2048 then [192 ||| (n >>> 6), 128 ||| (n &&& 63)]
    else if n < 65536 then
      [224 ||| (n >>> 12), 128 ||| ((n >>> 6) &&& 63), 128 ||| (n &&& 63)]
    else
      [240 ||| (n >>> 18), 128 ||| ((n >>> 12) &&& 63),
       128 ||| ((n >>> 6) &&& 63), 128 ||| (n &&& 63)])

/-- SHA-1 message padding: `0x80`, zeros, then the 64-bit big-endian bit
length, to a multiple of 64 bytes. -/
def sha1Pad (msg : List Nat) : List Nat :=
  let len := msg.length
  let bitLen := len * 8
  let padZeros := (119 - len % 64) % 64
  msg ++ [128] ++ List.replicate padZeros 0 ++
    [bitLen >>> 56 % 256, bitLen >>> 48 % 256, bitLen >>> 40 % 256, bitLen >>> 32 % 256,
     bitLen >>> 24 % 256, bitLen >>> 16 % 256, bitLen >>> 8 % 256, bitLen % 256]

/-- Big-endian 32-bit words from a byte list. -/
def bytesToWords : List Nat → List Nat
  | a :: b :: c :: d :: rest => (a <<< 24 ||| b <<< 16 ||| c <<< 8 ||| d) :: bytesToWords rest
  | _ => []

/-- Split a byte list into 64-byte chunks (fuel-based structural recursion;
the fuel bounds the number of chunks). -/
def chunks64Aux : Nat → List Nat → List (List Nat)
  | 0, _ => []
  | _, [] => []
  | fuel + 1, x :: rest => ((x :: rest).take 64) :: chunks64Aux fuel (rest.drop 63)

/-- Split a byte list into 64-byte chunks. -/
def chunks64 (l : List Nat) : List (List Nat) := chunks64Aux l.length l

/-- Expand the 16 block words to the 80-word message schedule. -/
def sha1Schedule (ws : List Nat) : List Nat :=
  (List.range 64).foldl (fun acc _ =>
    let n := acc.length
    acc ++ [rotl32 (((acc.getD (n - 3) 0) ^^^ (acc.getD (n - 8) 0)) ^^^
                    ((acc.getD (n - 14) 0) ^^^ (acc.getD (n - 16) 0))) 1]) ws

/-- One SHA-1 compression round over a 64-byte block. -/
def sha1Compress (h : List Nat) (block : List Nat) : List Nat :=
  let ws := sha1Schedule (bytesToWords block)
  let h0 := h.getD 0 0
  let h1 := h.getD 1 0
  let h2 := h.getD 2 0
  let h3 := h.getD 3 0
  let h4 := h.getD 4 0
  let final := (List.range 80).foldl
    (fun (st : Nat × Nat × Nat × Nat × Nat) i =>
      let a := st.1
      let b := st.2.1
      let c := st.2.2.1
      let d := st.2.2.2.1
      let e := st.2.2.2.2
      let f :=
        if i < 20 then (b &&& c) ||| ((b ^^^ 4294967295) &&& d)
        else if i < 40 then (b ^^^ c) ^^^ d
        else if i < 60 then ((b &&& c) ||| (b &&& d)) ||| (c &&& d)
        else (b ^^^ c) ^^^ d
      let k :=
        if i < 20 then 1518500249
        else if i < 40 then 1859775393
        else if i < 60 then 2400959708
        else 3395469782
      let temp := w32 (rotl32 a 5 + f + e + k + ws.getD i 0)
      (temp, a, rotl32 b 30, c, d))
    (h0, h1, h2, h3, h4)
  [w32 (h0 + final.1), w32 (h1 + final.2.1), w32 (h2 + final.2.2.1),
   w32 (h3 + final.2.2.2.1), w32 (h4 + final.2.2.2.2)]

/-- SHA-1 digest of a byte list, as five 32-bit words. -/
def sha1Words (msg : List Nat) : List Nat :=
  (chunks64 (sha1Pad msg)).foldl sha1Compress
    [1732584193, 4023233417, 2562383102, 271733878, 3285377520]

/-- One lowercase hex digit. -/
def hexDigitChar (n : Nat) : Char :=
  if n < 10 then Char.ofNat (48 + n) else Char.ofNat (87 + n)

/-- A 32-bit word as 8 lowercase hex digits. -/
def hexWord8 (n : Nat) : String :=
  String.mk ((List.range 8).map (fun i => hexDigitChar ((n >>> (28 - 4 * i)) % 16)))

/-- Model of `format!("{:x}", Sha1::digest(s.as_bytes()))`: the 40-character lowercase
hex SHA-1 of a string's UTF-8 bytes. -/
def sha1Hex (s : String) : String :=
  String.join ((sha1Words (utf8Bytes s)).map hexWord8)

/-- Model of `get_diff_if_changed`: trim the diff, hash it, and return the text only
when the digest differs from the last returned one; the pair is the updated
tracker (the `&mut self` receiver) and the result. -/
def get_diff_if_changed (env : GitEnv) (t : GitDiffTracker) :
    GitDiffTracker × Option String :=
  match get_diff env t with
  | none => (t, none)
  | some diff =>
    let trimmed := rustTrim diff
    let hash := sha1Hex trimmed
    match t.last_diff_hash with
    | some prev =>
      if prev = hash then (t, none)
      else ({ t with last_diff_hash := some hash }, some trimmed)
    | none => ({ t with last_diff_hash := some hash }, some trimmed)

/-- Whether the construction-time `rev-parse HEAD` fails in `env`
(command error, or empty/whitespace-only output). -/
def baselineCaptureFails (env : GitEnv) (cwd : Option RPath) : Bool :=
  match env.git cwd ["rev-parse", "HEAD"] with
  | some out => (rustTrim out).data.isEmpty
  | none => true

/-- The listed worktree paths parsed out of `worktree list --porcelain`
(the `worktree ` lines of the raw output). -/
def listedWorktrees (env : GitEnv) (t : GitDiffTracker) : List RPath :=
  match run_git env t ["worktree", "list", "--porcelain"] with
  | none => []
  | some raw =>
    (rustLines raw).filterMap (fun line =>
      if "worktree ".data.isPrefixOf line.data then
        some (RPath.parse (rustTrim (String.mk (line.data.drop "worktree ".data.length))))
      else none)

/-- Join a list of segments with a single `\n` boundary. -/
def joinBoundary : List String → String
  | [] => ""
  | [x] => x
  | x :: rest => x ++ "\n" ++ joinBoundary rest

/-- Modelled from the spec: the combination rule as the spec words it for
`get_diff` — every segment trimmed of surrounding whitespace before being
combined, empty segments dropped, and a single boundary inserted between the
contributing segments. -/
def specTrimmedCombine (segs : List String) : String :=
  joinBoundary ((segs.map rustTrim).filter (fun s => ¬ s.data.isEmpty))

/-! Concrete fixtures used to instantiate the theorems. -/

/-- A world where every git invocation succeeds with empty output and the
filesystem is empty. -/
def envE : GitEnv :=
  { git := fun _ _ => some "", currentDir := none,
    metadata := fun _ => none, readToString := fun _ => none }

/-- An enabled tracker over `/repo` with a captured baseline. -/
def t0 : GitDiffTracker :=
  { enabled := true, cwd := some (RPath.parse "/repo"), initial_git_hash := some "h",
    session_start_time := 0, last_diff_hash := none }

/-- A tracker whose baseline capture failed. -/
def tDis : GitDiffTracker :=
  { enabled := false, cwd := some (RPath.parse "/repo"), initial_git_hash := none,
    session_start_time := 0, last_diff_hash := none }

/-- An enabled tracker that has already returned the empty diff once. -/
def tUnch : GitDiffTracker :=
  { enabled := true, cwd := some (RPath.parse "/repo"), initial_git_hash := some "h",
    session_start_time := 5, last_diff_hash := some (sha1Hex "") }

/-- A world with five untracked files exercising every branch of the
untracked-file synthesis: a 3-line file created during the session, a
pre-session file, a file without obtainable timestamps, an unreadable file and
an empty file. -/
def envFS : GitEnv :=
  { git := fun _ args =>
      if args = ["ls-files", "--others", "--exclude-standard"] then
        some "new.txt\nold.txt\nnofile.txt\nbin.dat\nempty.txt\n"
      else some "",
    currentDir := none,
    metadata := fun p =>
      if p = RPath.parse "/repo/new.txt" then some { created := none, modified := some 10 }
      else if p = RPath.parse "/repo/old.txt" then some { created := some 1, modified := some 1 }
      else if p = RPath.parse "/repo/bin.dat" then some { created := some 10, modified := none }
      else if p = RPath.parse "/repo/empty.txt" then some { created := some 10, modified := none }
      else none,
    readToString := fun p =>
      if p = RPath.parse "/repo/new.txt" then some "a\nb\nc"
      else if p = RPath.parse "/repo/empty.txt" then some ""
      else none }

/-- An enabled tracker over `/repo` whose session started at time 5. -/
def tFS : GitDiffTracker :=
  { enabled := true, cwd := some (RPath.parse "/repo"), initial_git_hash := some "h",
    session_start_time := 5, last_diff_hash := none }

/-- A world whose repository has three worktrees: the tracked one, a linked
one nested below it and a linked one outside it. -/
def envWT : GitEnv :=
  { git := fun _ args =>
      if args = ["worktree", "list", "--porcelain"] then
        some "worktree /repo\nbranch refs/heads/main\n\nworktree /repo/sub\n\nworktree /other\n"
      else some "",
    currentDir := none,
    metadata := fun _ => none, readToString := fun _ => none }

/-! Helper lemmas. -/

theorem strAppend_assoc (a b c : String) : a ++ b ++ c = a ++ (b ++ c) := by
  cases a with
  | mk la =>
    cases b with
    | mk lb =>
      cases c with
      | mk lc =>
        show String.mk (la ++ lb ++ lc) = String.mk (la ++ (lb ++ lc))
        rw [List.append_assoc]

theorem get_diff_disabled (env : GitEnv) (t : GitDiffTracker) (h : t.enabled = false) :
    get_diff env t = none := by
  simp [get_diff, h]

theorem get_diff_enabled_isSome (env : GitEnv) (t : GitDiffTracker) (h : t.enabled = true) :
    (get_diff env t).isSome = true := by
  simp [get_diff, h]

theorem gdic_of_none (env : GitEnv) (t : GitDiffTracker) (h : get_diff env t = none) :
    get_diff_if_changed env t = (t, none) := by
  simp [get_diff_if_changed, h]

theorem new_disabled_of_fail (env : GitEnv) (cwd : Option RPath) (now : Nat)
    (hfail : baselineCaptureFails env cwd = true) :
    GitDiffTracker.new env true cwd now =
      { enabled := false, cwd := cwd, initial_git_hash := none,
        session_start_time := now, last_diff_hash := none } := by
  cases h : env.git cwd ["rev-parse", "HEAD"] with
  | none => simp [GitDiffTracker.new, capture_initial_state, run_git, h]
  | some out =>
    have hemp : (rustTrim out).data.isEmpty = true := by
      simpa [baselineCaptureFails, h] using hfail
    simp [GitDiffTracker.new, capture_initial_state, run_git, h, hemp]

/-! The claims. -/

/-- C1: when baseline capture at construction fails (the `rev-parse HEAD`
invocation errors or yields empty/whitespace-only output), the tracker comes
out permanently disabled — `enabled = false`, `get_diff` answers `none` in
every later world, and `get_diff_if_changed` answers `none` and leaves the
tracker disabled; conversely an enabled tracker's `get_diff` is never `none`. -/
theorem c1_baseline_disables (env : GitEnv) (cwd : Option RPath) (now : Nat)
    (hfail : baselineCaptureFails env cwd = true) :
    (GitDiffTracker.new env true cwd now).enabled = false
    ∧ (∀ env2 : GitEnv,
        get_diff env2 (GitDiffTracker.new env true cwd now) = none
        ∧ (get_diff_if_changed env2 (GitDiffTracker.new env true cwd now)).1.enabled = false
        ∧ (get_diff_if_changed env2 (GitDiffTracker.new env true cwd now)).2 = none)
    ∧ (∀ (env2 : GitEnv) (t2 : GitDiffTracker), t2.enabled = true →
        (get_diff env2 t2).isSome = true) := by
  have hnew := new_disabled_of_fail env cwd now hfail
  have hen : (GitDiffTracker.new env true cwd now).enabled = false := by rw [hnew]
  refine ⟨hen, fun env2 => ?_, fun env2 t2 h2 => get_diff_enabled_isSome env2 t2 h2⟩
  have hgd := get_diff_disabled env2 _ hen
  have hpair := gdic_of_none env2 _ hgd
  exact ⟨hgd, by rw [hpair]; exact hen, by rw [hpair]⟩

/-- C1 witness: over a world whose `rev-parse HEAD` output is empty the
constructed tracker is disabled and `get_diff` is unavailable. -/
theorem c1_witness :
    (GitDiffTracker.new envE true none 0).enabled = false
    ∧ get_diff envE (GitDiffTracker.new envE true none 0) = none :=
  ⟨(c1_baseline_disables envE none 0 (by decide)).1,
   ((c1_baseline_disables envE none 0 (by decide)).2.1 envE).1⟩

/-- C2: for a tracker that has not yet returned a diff, if two consecutive
`get_diff_if_changed` calls compute diffs with the same trimmed text, the
first call returns the trimmed text and the second returns the no-change
sentinel `none`. -/
theorem c2_dedup_consecutive (env env2 : GitEnv) (t : GitDiffTracker) (d d2 : String)
    (h0 : t.last_diff_hash = none)
    (h1 : get_diff env t = some d)
    (h2 : get_diff env2 ((get_diff_if_changed env t).1) = some d2)
    (h3 : rustTrim d2 = rustTrim d) :
    (get_diff_if_changed env t).2 = some (rustTrim d)
    ∧ (get_diff_if_changed env2 ((get_diff_if_changed env t).1)).2 = none := by
  have ht1 : (get_diff_if_changed env t).1 =
      { t with last_diff_hash := some (sha1Hex (rustTrim d)) } := by
    simp [get_diff_if_changed, h1, h0]
  constructor
  · simp [get_diff_if_changed, h1, h0]
  · rw [ht1] at h2
    rw [ht1]
    simp [get_diff_if_changed, h2, h3]

/-- C2 witness: a session with an empty diff requested twice returns the
empty string first and the no-change sentinel the second time. -/
theorem c2_witness :
    (get_diff_if_changed envE t0).2 = some (rustTrim "")
    ∧ (get_diff_if_changed envE ((get_diff_if_changed envE t0).1)).2 = none :=
  c2_dedup_consecutive envE envE t0 "" "" (by rfl) (by decide) (by decide) (by rfl)

/-- C3: the stored digest always reflects the last value returned by
`get_diff_if_changed` — when text is returned the new state stores exactly its
digest, when no text is returned the state (so in particular the stored
digest) is unchanged, a computed-but-discarded digest is never stored, and a
second call on a state whose stored digest matches the freshly computed
trimmed diff returns no text; `get_diff` is a pure reader and
`get_diff_if_changed` never changes any field other than `last_diff_hash`. -/
theorem c3_digest_invariant (env : GitEnv) (t : GitDiffTracker) :
    (∀ s, (get_diff_if_changed env t).2 = some s →
      (get_diff_if_changed env t).1.last_diff_hash = some (sha1Hex s))
    ∧ ((get_diff_if_changed env t).2 = none → (get_diff_if_changed env t).1 = t)
    ∧ (∀ (env2 : GitEnv) (t2 : GitDiffTracker) (d2 : String),
        get_diff env2 t2 = some d2 →
        t2.last_diff_hash = some (sha1Hex (rustTrim d2)) →
        (get_diff_if_changed env2 t2).2 = none ∧ (get_diff_if_changed env2 t2).1 = t2)
    ∧ ((get_diff_if_changed env t).1.enabled = t.enabled
        ∧ (get_diff_if_changed env t).1.cwd = t.cwd
        ∧ (get_diff_if_changed env t).1.initial_git_hash = t.initial_git_hash
        ∧ (get_diff_if_changed env t).1.session_start_time = t.session_start_time) := by
  refine ⟨?_, ?_, ?_, ?_⟩
  · intro s hs
    unfold get_diff_if_changed at hs ⊢
    cases hd : get_diff env t with
    | none => rw [hd] at hs; simp at hs
    | some d =>
      rw [hd] at hs
      cases hl : t.last_diff_hash with
      | none =>
        rw [hl] at hs
        simp at hs ⊢
        rw [hs]
      | some prev =>
        rw [hl] at hs
        by_cases he : prev = sha1Hex (rustTrim d)
        · simp [he] at hs
        · simp [he] at hs ⊢
          rw [hs]
  · intro hn
    unfold get_diff_if_changed at hn ⊢
    cases hd : get_diff env t with
    | none => rfl
    | some d =>
      rw [hd] at hn
      cases hl : t.last_diff_hash with
      | none => rw [hl] at hn; simp at hn
      | some prev =>
        rw [hl] at hn
        by_cases he : prev = sha1Hex (rustTrim d)
        · simp [he]
        · simp [he] at hn
  · intro env2 t2 d2 hd2 hh2
    unfold get_diff_if_changed
    rw [hd2, hh2]
    simp
  · unfold get_diff_if_changed
    cases hd : get_diff env t with
    | none => exact ⟨rfl, rfl, rfl, rfl⟩
    | some d =>
      cases hl : t.last_diff_hash with
      | none => exact ⟨rfl, rfl, rfl, rfl⟩
      | some prev =>
        by_cases he : prev = sha1Hex (rustTrim d)
        · simp [he]
        · simp [he]

/-- C3 witness: after the empty diff is returned once its digest is stored,
and a further call on that state computing the same diff returns no text and
leaves the state untouched. -/
theorem c3_witness :
    (get_diff_if_changed envE tUnch).2 = none
    ∧ (get_diff_if_changed envE tUnch).1 = tUnch :=
  (c3_digest_invariant envE tUnch).2.2.1 envE tUnch "" (by decide) (by rfl)

theorem join_if_empty (l : List String) (f : String → String) :
    (if l.isEmpty then "" else String.join (l.map f)) = String.join (l.map f) := by
  cases l with
  | nil => rfl
  | cons x xs => simp

/-- C4: the untracked-file filter resolves a file's timestamp as creation
time with fallback to modification time; a file whose resolved timestamp is
strictly earlier than the session start contributes nothing, a file whose
timestamp is unobtainable contributes nothing, and the overall listing is
still the concatenation of the per-file blocks — one skipped file never
fails the whole listing. -/
theorem c4_timestamp_filter (env : GitEnv) (t : GitDiffTracker) (excl : List String) :
    (∀ (m : FileMeta) (c : Nat), m.created = some c → m.resolve = some c)
    ∧ (∀ m : FileMeta, m.created = none → m.resolve = m.modified)
    ∧ (∀ (base : RPath) (rel : String) (ss : Nat),
        resolveTime env (base.join rel) = none → fileBlock env base rel ss = "")
    ∧ (∀ (base : RPath) (rel : String) (ss ts : Nat),
        resolveTime env (base.join rel) = some ts → ts < ss →
        fileBlock env base rel ss = "")
    ∧ (∀ out, run_git env t (withExclusions ["ls-files", "--others", "--exclude-standard"] excl)
          = some out →
        get_untracked_files env t excl =
          String.join (((rustLines out).filter (fun s => ¬ (rustTrim s).data.isEmpty)).map
            (fun rel => fileBlock env (effectiveDir env t) rel t.session_start_time))) := by
  refine ⟨?_, ?_, ?_, ?_, ?_⟩
  · intro m c hc
    simp [FileMeta.resolve, hc, Option.orElse]
  · intro m hc
    cases hm : m.modified with
    | none => simp [FileMeta.resolve, hc, hm, Option.orElse]
    | some v => simp [FileMeta.resolve, hc, hm, Option.orElse]
  · intro base rel ss hnone
    simp [fileBlock, hnone]
  · intro base rel ss ts hts hlt
    simp [fileBlock, hts, hlt]
  · intro out hout
    simp only [get_untracked_files, hout]
    exact join_if_empty _ _

/-- C4 witness: a pre-session file (timestamp 1, session start 5) and a file
without obtainable timestamps each contribute an empty block, the
modification-time fallback resolves, and the listing is the concatenation of
the per-file blocks. -/
theorem c4_witness :
    fileBlock envFS (RPath.parse "/repo") "old.txt" 5 = ""
    ∧ fileBlock envFS (RPath.parse "/repo") "nofile.txt" 5 = ""
    ∧ FileMeta.resolve { created := none, modified := some 10 } = some 10 :=
  ⟨(c4_timestamp_filter envFS tFS []).2.2.2.1 (RPath.parse "/repo") "old.txt" 5 1
      (by decide) (by decide),
   (c4_timestamp_filter envFS tFS []).2.2.1 (RPath.parse "/repo") "nofile.txt" 5 (by decide),
   (c4_timestamp_filter envFS tFS []).2.1 { created := none, modified := some 10 } (by rfl)⟩

/-- C5: for a qualifying untracked file whose content reads as text, the
synthesized block is exactly the `diff --git`/`new file mode 100644`/zero
index/`--- /dev/null`/`+++` headers, the hunk header `@@ -0,0 +1,N @@` with
`N` the content's line count, one `+`-prefixed line per source line, and a
`\ No newline at end of file` marker directly after the last `+` line exactly
when the content does not end with a newline. -/
theorem c5_text_block (env : GitEnv) (base : RPath) (rel : String) (ss ts : Nat)
    (contents : String)
    (hts : resolveTime env (base.join rel) = some ts)
    (hge : ¬ ts < ss)
    (hread : env.readToString (base.join rel) = some contents) :
    fileBlock env base rel ss =
      "diff --git a/" ++ rel ++ " b/" ++ rel ++ "\n"
      ++ "new file mode 100644\n"
      ++ "index 0000000..0000000\n"
      ++ "--- /dev/null\n"
      ++ "+++ b/" ++ rel ++ "\n"
      ++ ("@@ -0,0 +1," ++ Nat.repr (rustLines contents).length ++ " @@\n"
          ++ String.join ((rustLines contents).map (fun l => "+" ++ l ++ "\n"))
          ++ (if ¬ (contents.data.getLast? = some '\n') then
                "\\ No newline at end of file\n" else ""))
      ++ "\n" := by
  simp [fileBlock, hts, hge, hread, strAppend_assoc]

/-- C5 witness: the 3-line file `a\nb\nc` with no trailing newline produces
the exact block with hunk header `@@ -0,0 +1,3 @@`, three `+` lines and the
no-newline marker. -/
theorem c5_witness :
    fileBlock envFS (RPath.parse "/repo") "new.txt" 5 =
      "diff --git a/new.txt b/new.txt\n"
      ++ "new file mode 100644\n"
      ++ "index 0000000..0000000\n"
      ++ "--- /dev/null\n"
      ++ "+++ b/new.txt\n"
      ++ ("@@ -0,0 +1," ++ Nat.repr (rustLines "a\nb\nc").length ++ " @@\n"
          ++ String.join ((rustLines "a\nb\nc").map (fun l => "+" ++ l ++ "\n"))
          ++ (if ¬ (("a\nb\nc" : String).data.getLast? = some '\n') then
                "\\ No newline at end of file\n" else ""))
      ++ "\n" :=
  c5_text_block envFS (RPath.parse "/repo") "new.txt" 5 10 "a\nb\nc"
    (by decide) (by decide) (by decide)

/-- C6: when reading a qualifying untracked file fails, its block is the
headers followed by the one-line placeholder hunk `@@ -0,0 +1,1 @@` /
`+[Binary or unreadable file]`; the listing is still the concatenation of all
per-file blocks and `get_diff`'s assembly still produces its combined result
— the failure never aborts the other files or the overall diff. -/
theorem c6_unreadable_placeholder (env : GitEnv) (t : GitDiffTracker) (excl : List String) :
    (∀ (base : RPath) (rel : String) (ss ts : Nat),
        resolveTime env (base.join rel) = some ts → ¬ ts < ss →
        env.readToString (base.join rel) = none →
        fileBlock env base rel ss =
          "diff --git a/" ++ rel ++ " b/" ++ rel ++ "\n"
          ++ "new file mode 100644\n"
          ++ "index 0000000..0000000\n"
          ++ "--- /dev/null\n"
          ++ "+++ b/" ++ rel ++ "\n"
          ++ ("@@ -0,0 +1,1 @@\n" ++ "+[Binary or unreadable file]\n")
          ++ "\n")
    ∧ (∀ out, run_git env t (withExclusions ["ls-files", "--others", "--exclude-standard"] excl)
          = some out →
        get_untracked_files env t excl =
          String.join (((rustLines out).filter (fun s => ¬ (rustTrim s).data.isEmpty)).map
            (fun rel => fileBlock env (effectiveDir env t) rel t.session_start_time)))
    ∧ (t.enabled = true →
        get_diff env t = some (combineSegments
          (gitDiffSegment env t (get_worktree_exclusions env t))
          (get_untracked_files env t (get_worktree_exclusions env t)))) := by
  refine ⟨?_, ?_, ?_⟩
  · intro base rel ss ts hts hge hread
    simp only [fileBlock, hts, hread, String.append_assoc]
    rw [if_neg hge]
  · intro out hout
    simp only [get_untracked_files, hout]
    exact join_if_empty _ _
  · intro hen
    simp [get_diff, hen]

/-- C6 witness: the unreadable file `bin.dat` (created during the session)
yields exactly the placeholder block. -/
theorem c6_witness :
    fileBlock envFS (RPath.parse "/repo") "bin.dat" 5 =
      "diff --git a/bin.dat b/bin.dat\n"
      ++ "new file mode 100644\n"
      ++ "index 0000000..0000000\n"
      ++ "--- /dev/null\n"
      ++ "+++ b/bin.dat\n"
      ++ ("@@ -0,0 +1,1 @@\n" ++ "+[Binary or unreadable file]\n")
      ++ "\n" :=
  (c6_unreadable_placeholder envFS tFS []).1 (RPath.parse "/repo") "bin.dat" 5 10
    (by decide) (by decide) (by decide)

/-- C10: a zero-byte untracked file created during the session synthesizes a
block with hunk header `@@ -0,0 +1,0 @@`, zero `+` content lines (its line
list is empty), and the `\ No newline at end of file` marker, since the empty
content does not end with a newline. -/
theorem c10_empty_file_block (env : GitEnv) (base : RPath) (rel : String) (ss ts : Nat)
    (hts : resolveTime env (base.join rel) = some ts)
    (hge : ¬ ts < ss)
    (hread : env.readToString (base.join rel) = some "") :
    fileBlock env base rel ss =
      "diff --git a/" ++ rel ++ " b/" ++ rel ++ "\n"
      ++ "new file mode 100644\n"
      ++ "index 0000000..0000000\n"
      ++ "--- /dev/null\n"
      ++ "+++ b/" ++ rel ++ "\n"
      ++ ("@@ -0,0 +1,0 @@\n" ++ "\\ No newline at end of file\n")
      ++ "\n"
    ∧ rustLines "" = [] := by
  refine ⟨?_, rfl⟩
  simp only [fileBlock, hts, hread, String.append_assoc]
  rw [if_neg hge]
  rfl

/-- C10 witness: the zero-byte file `empty.txt` produces exactly that
block. -/
theorem c10_witness :
    fileBlock envFS (RPath.parse "/repo") "empty.txt" 5 =
      "diff --git a/empty.txt b/empty.txt\n"
      ++ "new file mode 100644\n"
      ++ "index 0000000..0000000\n"
      ++ "--- /dev/null\n"
      ++ "+++ b/empty.txt\n"
      ++ ("@@ -0,0 +1,0 @@\n" ++ "\\ No newline at end of file\n")
      ++ "\n" :=
  ((c10_empty_file_block envFS (RPath.parse "/repo") "empty.txt" 5 10
      (by decide) (by decide) (by decide)).1)

set_option maxRecDepth 100000 in
/-- C7 counterexample: over a world with untracked files, `get_diff`'s result
is not the spec-worded combination in which every segment is trimmed before
being combined — the untracked segment is appended untrimmed, so the combined
text keeps its trailing blank line. -/
theorem c7_counterexample :
    get_diff envFS tFS ≠
      some (specTrimmedCombine
        [gitDiffSegment envFS tFS (get_worktree_exclusions envFS tFS),
         get_untracked_files envFS tFS (get_worktree_exclusions envFS tFS)]) := by
  decide

/-- C7 (amended): `get_diff` combines the VCS diff segment first and the
synthesized untracked-file section second; the VCS segment is trimmed before
combining while the untracked section is appended verbatim, empty segments
contribute nothing, and a single newline boundary is inserted exactly when
both segments are non-empty. -/
theorem c7_combination (env : GitEnv) (t : GitDiffTracker) (h : t.enabled = true) :
    get_diff env t = some (combineSegments
      (gitDiffSegment env t (get_worktree_exclusions env t))
      (get_untracked_files env t (get_worktree_exclusions env t)))
    ∧ (∀ g : String, combineSegments g "" = g)
    ∧ (∀ u : String, ¬ u.data.isEmpty → combineSegments "" u = u)
    ∧ (∀ g u : String, ¬ g.data.isEmpty → ¬ u.data.isEmpty →
        combineSegments g u = g ++ "\n" ++ u) := by
  refine ⟨?_, ?_, ?_, ?_⟩
  · simp [get_diff, h]
  · intro g
    simp [combineSegments]
  · intro u hu
    simp only [combineSegments, hu, if_false]
    simp [String.ext_iff]
  · intro g u hg hu
    simp [combineSegments, hg, hu]

/-- C7 witness: on an enabled tracker the combination equation holds, and
over the empty world the combined diff is the empty string. -/
theorem c7_witness :
    get_diff envE t0 = some (combineSegments
      (gitDiffSegment envE t0 (get_worktree_exclusions envE t0))
      (get_untracked_files envE t0 (get_worktree_exclusions envE t0))) :=
  (c7_combination envE t0 rfl).1

set_option maxRecDepth 100000 in
/-- C9 counterexample: the disabled (unavailable) outcome and the
digest-unchanged outcome of `get_diff_if_changed` are the same observable
result `none` — the caller cannot tell them apart from this return value, so
the three outcomes are not mutually distinguishable. -/
theorem c9_counterexample :
    tDis.enabled = false
    ∧ tUnch.enabled = true
    ∧ get_diff envE tUnch = some ""
    ∧ (get_diff_if_changed envE tDis).2 = (get_diff_if_changed envE tUnch).2 := by
  refine ⟨rfl, rfl, by decide, by decide⟩

/-- C9 (amended): `get_diff_if_changed` returns `none` both when tracking is
disabled and when the digest is unchanged, and returns the trimmed text
exactly when the stored digest differs; the unavailable/no-changes
distinction exists at `get_diff` (`none` versus `some`), not in
`get_diff_if_changed`'s return value. -/
theorem c9_tri_state (env : GitEnv) (t : GitDiffTracker) :
    (t.enabled = false → get_diff env t = none ∧ (get_diff_if_changed env t).2 = none)
    ∧ (t.enabled = true → (get_diff env t).isSome = true)
    ∧ (∀ d, get_diff env t = some d → t.last_diff_hash = some (sha1Hex (rustTrim d)) →
        (get_diff_if_changed env t).2 = none)
    ∧ (∀ d, get_diff env t = some d → t.last_diff_hash ≠ some (sha1Hex (rustTrim d)) →
        (get_diff_if_changed env t).2 = some (rustTrim d)) := by
  refine ⟨?_, ?_, ?_, ?_⟩
  · intro h
    have hg := get_diff_disabled env t h
    exact ⟨hg, by rw [gdic_of_none env t hg]⟩
  · exact get_diff_enabled_isSome env t
  · intro d hd hh
    unfold get_diff_if_changed
    rw [hd, hh]
    simp
  · intro d hd hh
    unfold get_diff_if_changed
    rw [hd]
    cases hl : t.last_diff_hash with
    | none => simp
    | some prev =>
      rw [hl] at hh
      have hne : prev ≠ sha1Hex (rustTrim d) := by
        intro he
        exact hh (by rw [he])
      simp [hne]

/-- C9 witness: for the disabled tracker both entry points answer `none`. -/
theorem c9_witness :
    get_diff envE tDis = none ∧ (get_diff_if_changed envE tDis).2 = none :=
  (c9_tri_state envE tDis).1 rfl

theorem parse_comps_ne_empty (s : String) : ∀ c ∈ (RPath.parse s).comps, c ≠ "" := by
  intro c hc
  have hex : ∃ l, l ∈ (splitOnChar '/' s.data).filter (fun x => ¬ x.isEmpty)
      ∧ String.mk l = c := by
    simp only [RPath.parse] at hc
    cases hraw : (splitOnChar '/' s.data).filter (fun x => ¬ x.isEmpty) with
    | nil =>
      rw [hraw] at hc
      simp at hc
    | cons x rest =>
      rw [hraw] at hc
      simp only [List.map_cons, List.mem_cons, List.mem_map] at hc
      rcases hc with h1 | ⟨l, hl, hl2⟩
      · exact ⟨x, List.mem_cons_self _ _, h1.symm⟩
      · exact ⟨l, List.mem_cons_of_mem _ (List.mem_of_mem_filter hl), hl2⟩
  rcases hex with ⟨l, hl, hmk⟩
  have hfil := (List.mem_filter.mp hl).2
  intro hce
  rw [hce] at hmk
  have hnil : l = [] := congrArg String.data hmk
  rw [hnil] at hfil
  simp at hfil

theorem stripBase_some_nil {w cur : RPath} (h : w.stripBase cur = some []) : w = cur := by
  unfold RPath.stripBase at h
  by_cases hcond : w.absolute = cur.absolute ∧ cur.comps.isPrefixOf w.comps
  · rw [if_pos hcond] at h
    have hdrop : w.comps.drop cur.comps.length = [] := by
      injection h
    have hlen : w.comps.length ≤ cur.comps.length := by
      have hl := congrArg List.length hdrop
      simp [List.length_drop] at hl
      omega
    have hpre : cur.comps <+: w.comps := List.isPrefixOf_iff_prefix.mp hcond.2
    have hcomps : cur.comps = w.comps :=
      hpre.eq_of_length (Nat.le_antisymm hpre.length_le hlen)
    cases w with
    | mk wa wc =>
      cases cur with
      | mk ca cc =>
        simp only at hcond hcomps
        rw [RPath.mk.injEq]
        exact ⟨hcond.1, hcomps.symm⟩
  · rw [if_neg hcond] at h
    exact absurd h (by simp)

theorem stripBase_subset {w cur : RPath} {rel : List String}
    (h : w.stripBase cur = some rel) : ∀ x ∈ rel, x ∈ w.comps := by
  unfold RPath.stripBase at h
  by_cases hcond : w.absolute = cur.absolute ∧ cur.comps.isPrefixOf w.comps
  · rw [if_pos hcond] at h
    have hrel : w.comps.drop cur.comps.length = rel := by
      injection h
    intro x hx
    rw [← hrel] at hx
    exact List.drop_subset _ _ hx
  · rw [if_neg hcond] at h
    exact absurd h (by simp)

theorem joinSlash_ne_empty (l : List String) (h0 : l ≠ [])
    (h1 : ∀ x ∈ l, x ≠ "") : ¬ (joinSlash l).data.isEmpty := by
  cases l with
  | nil => exact absurd rfl h0
  | cons x rest =>
    cases rest with
    | nil =>
      have hx := h1 x (List.mem_cons_self _ _)
      show ¬ x.data.isEmpty = true
      cases hd : x.data with
      | nil => exact absurd (show x = "" from String.ext hd) hx
      | cons a as => simp
    | cons y rest2 =>
      show ¬ ((x ++ "/" ++ joinSlash (y :: rest2)).data).isEmpty = true
      have hs : "/".data = ['/'] := rfl
      simp [String.data_append, hs]

theorem fileBlock_congr (env env2 : GitEnv) (hm : env2.metadata = env.metadata)
    (hr : env2.readToString = env.readToString) (base : RPath) (rel : String) (ss : Nat) :
    fileBlock env2 base rel ss = fileBlock env base rel ss := by
  unfold fileBlock resolveTime
  rw [hm, hr]

/-- C8: the exclusion computation emits exactly one `:(exclude)<relpath>`
pattern per listed worktree path that is distinct from the tracker's
directory and lies under it, and none for the tracker's own directory or
paths outside it; the pattern list is appended after a `--` separator, and
the diff invocation and the untracked-file listing consume the list built by
the same computation — the diff segment is determined by the git answer at
the `--`-separated diff args, and the untracked listing by the git answer at
the `--`-separated `ls-files` args (plus the filesystem). -/
theorem c8_exclusion_patterns (env : GitEnv) (t : GitDiffTracker) :
    get_worktree_exclusions env t =
      (listedWorktrees env t).filterMap (fun w =>
        if w ≠ effectiveDir env t ∧ (w.stripBase (effectiveDir env t)).isSome then
          some (":(exclude)" ++ joinSlash ((w.stripBase (effectiveDir env t)).getD []))
        else none)
    ∧ (∀ base : List String, withExclusions base [] = base)
    ∧ (∀ (base excl : List String), excl ≠ [] →
        withExclusions base excl = base ++ "--" :: excl)
    ∧ (gitDiffSegment env t (get_worktree_exclusions env t) =
        rustTrim ((run_git env t (withExclusions (diffBaseArgs t)
          (get_worktree_exclusions env t))).getD ""))
    ∧ (∀ env2 : GitEnv,
        env2.git t.cwd (withExclusions ["ls-files", "--others", "--exclude-standard"]
          (get_worktree_exclusions env t)) =
        env.git t.cwd (withExclusions ["ls-files", "--others", "--exclude-standard"]
          (get_worktree_exclusions env t)) →
        env2.metadata = env.metadata →
        env2.readToString = env.readToString →
        env2.currentDir = env.currentDir →
        get_untracked_files env2 t (get_worktree_exclusions env t) =
          get_untracked_files env t (get_worktree_exclusions env t)) := by
  refine ⟨?_, ?_, ?_, ?_, ?_⟩
  · cases hr : run_git env t ["worktree", "list", "--porcelain"] with
    | none => simp [get_worktree_exclusions, listedWorktrees, hr]
    | some raw =>
      simp only [get_worktree_exclusions, listedWorktrees, hr]
      rw [List.filterMap_filterMap]
      apply List.filterMap_congr
      intro line hline
      by_cases hpre : ("worktree ".data.isPrefixOf line.data) = true
      · simp only [hpre, if_true, Option.some_bind]
        by_cases heq :
            RPath.parse (rustTrim (String.mk (line.data.drop 9)))
              = effectiveDir env t
        · simp [heq]
        · cases hsb :
              (RPath.parse (rustTrim (String.mk
                (line.data.drop 9)))).stripBase (effectiveDir env t) with
          | none => simp [heq, hsb]
          | some rel =>
            have hrelnil : rel ≠ [] := by
              intro hn
              rw [hn] at hsb
              exact heq (stripBase_some_nil hsb)
            have hmem := stripBase_subset hsb
            have hne : ¬ (joinSlash rel).data.isEmpty :=
              joinSlash_ne_empty rel hrelnil
                (fun x hx => parse_comps_ne_empty _ x (hmem x hx))
            simp [heq, hsb, hne]
      · simp only [Bool.not_eq_true] at hpre
        simp [hpre]
  · intro base
    simp [withExclusions]
  · intro base excl hne
    simp [withExclusions, hne]
  · unfold gitDiffSegment
    cases hr : run_git env t (withExclusions (diffBaseArgs t) (get_worktree_exclusions env t)) with
    | none => rfl
    | some out => rfl
  · intro env2 hgit hm hrd hcd
    simp only [get_untracked_files, run_git, hgit, effectiveDir, hcd,
      fileBlock_congr env env2 hm hrd]

/-- C8 witness: with a nested linked worktree `/repo/sub` and an outside one
`/other`, exactly the pattern `:(exclude)sub` is produced, and appending it to
the diff and `ls-files` argument lists places it after the `--` separator. -/
theorem c8_witness :
    get_worktree_exclusions envWT t0 = [":(exclude)sub"]
    ∧ withExclusions (diffBaseArgs t0) [":(exclude)sub"]
        = diffBaseArgs t0 ++ "--" :: [":(exclude)sub"]
    ∧ withExclusions ["ls-files", "--others", "--exclude-standard"] [":(exclude)sub"]
        = ["ls-files", "--others", "--exclude-standard"] ++ "--" :: [":(exclude)sub"] :=
  ⟨by decide,
   (c8_exclusion_patterns envWT t0).2.2.1 (diffBaseArgs t0) [":(exclude)sub"] (by decide),
   (c8_exclusion_patterns envWT t0).2.2.1 ["ls-files", "--others", "--exclude-standard"]
     [":(exclude)sub"] (by decide)⟩
